import Mathlib

/-!
Shallow embedding of the statistical-analysis app (`src/main.py`).

The app parses an uploaded CSV into a dataframe, filters numeric columns,
lets the user select a subset, and then
  - computes `df[selected_cols].describe().T` plus `skew()` and `kurtosis()`
    columns (the statistics table),
  - renders one of four charts (scatter, box, histogram, skewness bar),
  - exports the statistics table as CSV bytes under a fixed filename.

Numbers are modelled exactly: cell values are rationals (`ℚ`), a missing
cell is `none`, and real-valued statistics (standard deviation, skewness)
live in `ℝ` because they involve square roots.  The moment computations
follow pandas `nanops` semantics: `skew` and `kurt` are the bias-corrected
estimators with the `m2 == 0` (resp. `denominator == 0`) branch returning
`0` and the small-count branch returning `NaN` (modelled as `none`).
-/

namespace StatsApp

/-- Cells of a numeric column; `none` is a missing value (NaN). -/
abbrev NumCells := List (Option ℚ)

/-- Column payload: a numeric column or a text column. -/
inductive ColData where
  | numeric (cells : List (Option ℚ))
  | text (cells : List (Option String))
deriving DecidableEq

/-- A named dataframe column. -/
structure Column where
  name : String
  data : ColData
deriving DecidableEq

/-- A parsed dataframe: ordered list of named columns. -/
abbrev Table := List Column

/-- Number of cells held by a column. -/
def ColData.length : ColData → ℕ
  | .numeric cs => cs.length
  | .text cs => cs.length

/-- Whether a column is numeric-typed (`select_dtypes(include=np.number)`). -/
def Column.isNumeric (c : Column) : Bool :=
  match c.data with
  | .numeric _ => true
  | .text _ => false

/-- Number of rows of the table (all columns have equal length). -/
def Table.numRows (t : Table) : ℕ :=
  match t with
  | [] => 0
  | c :: _ => c.data.length

/-- pandas `df.empty`: true when the table has no columns or no rows. -/
def Table.emptyTable (t : Table) : Bool :=
  t.isEmpty || t.numRows == 0

/-- `df.select_dtypes(include=np.number).columns.tolist()`. -/
def numericCols (t : Table) : List String :=
  (t.filter Column.isNumeric).map Column.name

/-- Raw cells of the column named `nm` (empty when absent or non-numeric). -/
def numCells (t : Table) (nm : String) : NumCells :=
  match t.find? (fun c => c.name == nm) with
  | some c =>
    match c.data with
    | .numeric cs => cs
    | .text _ => []
  | none => []

/-- Non-missing values of the column named `nm` (pandas skips NaN). -/
def numValues (t : Table) (nm : String) : List ℚ :=
  (numCells t nm).filterMap id

/-- Arithmetic mean of a list of rationals (`0` on the empty list). -/
def mean (l : List ℚ) : ℚ := l.sum / l.length

/-- Sum of `k`-th powers of deviations from the mean (pandas `m2`, `m3`, `m4`). -/
def centralSum (l : List ℚ) (k : ℕ) : ℚ :=
  (l.map (fun x => (x - mean l) ^ k)).sum

/-- pandas `Series.mean`: NaN on an empty series. -/
def meanOpt (l : List ℚ) : Option ℚ :=
  if l.isEmpty then none else some (mean l)

/-- Sample variance with denominator `n - 1` (pandas default `ddof=1`). -/
def sampleVar (l : List ℚ) : ℚ :=
  centralSum l 2 / ((l.length : ℚ) - 1)

/-- pandas `Series.std` (`ddof=1`): NaN for fewer than two values. -/
noncomputable def stdOpt (l : List ℚ) : Option ℝ :=
  if l.length < 2 then none else some (Real.sqrt (sampleVar l))

/-- Values sorted ascending. -/
def sortedVals (l : List ℚ) : List ℚ :=
  List.insertionSort (fun a b => a ≤ b) l

/-- `i`-th order statistic, with junk value `0` out of range. -/
def nthSorted (l : List ℚ) (i : ℕ) : ℚ :=
  (sortedVals l).getD i 0

/-- Quantile with linear interpolation (numpy / pandas `describe` default):
position `q * (n - 1)`, interpolating between adjacent order statistics.
NaN on an empty series. -/
def quantile (l : List ℚ) (q : ℚ) : Option ℚ :=
  if l.isEmpty then none
  else
    let pos : ℚ := q * ((l.length : ℚ) - 1)
    let i : ℕ := ⌊pos⌋.toNat
    let frac : ℚ := pos - (i : ℚ)
    some (nthSorted l i + frac * (nthSorted l (i + 1) - nthSorted l i))

/-- pandas `nanskew` (`Series.skew`): NaN for fewer than 3 values; `0` when
the second central moment vanishes; otherwise the bias-corrected estimator
`n * sqrt(n-1) / (n-2) * m3 / m2^(3/2)` with `m2`, `m3` the centred sums. -/
noncomputable def skewOpt (l : List ℚ) : Option ℝ :=
  if l.length < 3 then none
  else if centralSum l 2 = 0 then some 0
  else some ((l.length : ℝ) * Real.sqrt ((l.length : ℝ) - 1) / ((l.length : ℝ) - 2) *
    ((centralSum l 3 : ℝ) / Real.sqrt (((centralSum l 2 : ℚ) : ℝ) ^ 3)))

/-- pandas `nankurt` (`Series.kurtosis`): NaN for fewer than 4 values; `0`
when the denominator `(n-2)(n-3)m2²` vanishes; otherwise the bias-corrected
excess-kurtosis estimator. -/
def kurtOpt (l : List ℚ) : Option ℚ :=
  if l.length < 4 then none
  else if ((l.length : ℚ) - 2) * ((l.length : ℚ) - 3) * (centralSum l 2) ^ 2 = 0 then some 0
  else some ((l.length : ℚ) * ((l.length : ℚ) + 1) * ((l.length : ℚ) - 1) * centralSum l 4 /
      (((l.length : ℚ) - 2) * ((l.length : ℚ) - 3) * (centralSum l 2) ^ 2) -
    3 * ((l.length : ℚ) - 1) ^ 2 / (((l.length : ℚ) - 2) * ((l.length : ℚ) - 3)))

/-- One row of the statistics table: `describe()` fields plus the appended
`skewness` and `kurtosis` columns. -/
structure StatisticsRow where
  count : ℕ
  mean : Option ℚ
  std : Option ℝ
  minv : Option ℚ
  p25 : Option ℚ
  p50 : Option ℚ
  p75 : Option ℚ
  maxv : Option ℚ
  skewness : Option ℝ
  kurtosis : Option ℚ

/-- The statistics row of one column, over its raw cells (NaN skipped). -/
noncomputable def statsRow (cells : NumCells) : StatisticsRow :=
  let l := cells.filterMap id
  { count := l.length
    mean := meanOpt l
    std := stdOpt l
    minv := l.min?
    p25 := quantile l (1 / 4)
    p50 := quantile l (1 / 2)
    p75 := quantile l (3 / 4)
    maxv := l.max?
    skewness := skewOpt l
    kurtosis := kurtOpt l }

/-- The statistics table: one row per selected column, in selection order
(`df[selected_cols].describe().T` with `skewness` and `kurtosis` added). -/
noncomputable def statsTable (t : Table) (sel : List String) : List (String × StatisticsRow) :=
  sel.map (fun nm => (nm, statsRow (numCells t nm)))

/-! ## Skewness bar chart (`"Skewness Analysis"` branch)

The code computes `df[selected_cols].skew()` and applies `sort_values()`
(ascending, NaN placed last) before plotting the horizontal bars. -/

/-- The `sort_values` order on possibly-NaN values: defined values by `≤`,
NaN (`none`) after every defined value. -/
def oleR : Option ℝ → Option ℝ → Prop
  | _, none => True
  | none, some _ => False
  | some a, some b => a ≤ b

/-- `sort_values` order on `(column, skew)` pairs: compare the values. -/
def pairLE (a b : String × Option ℝ) : Prop := oleR a.2 b.2

noncomputable instance : DecidableRel pairLE := fun _ _ => Classical.dec _

instance : IsTotal (String × Option ℝ) pairLE where
  total a b := by
    cases ha : a.2 with
    | none => cases b.2 <;> simp [pairLE, oleR, ha]
    | some x =>
      cases hb : b.2 with
      | none => simp [pairLE, oleR, ha, hb]
      | some y => simpa [pairLE, oleR, ha, hb] using le_total x y

instance : IsTrans (String × Option ℝ) pairLE where
  trans a b c hab hbc := by
    cases ha : a.2 with
    | none =>
      cases hb : b.2 with
      | none =>
        cases hc : c.2 <;> simp_all [pairLE, oleR]
      | some y =>
        cases hc : c.2 <;> simp_all [pairLE, oleR]
    | some x =>
      cases hb : b.2 with
      | none =>
        cases hc : c.2 <;> simp_all [pairLE, oleR]
      | some y =>
        cases hc : c.2 with
        | none => simp [pairLE, oleR, ha, hc]
        | some z =>
          simp_all only [pairLE, oleR]
          exact le_trans hab hbc

/-- The skewness bar chart series: per-column skewness in selection order,
sorted ascending by value with NaN last (`.skew().sort_values()`). -/
noncomputable def skewChart (t : Table) (sel : List String) : List (String × Option ℝ) :=
  List.insertionSort pairLE (sel.map (fun nm => (nm, skewOpt (numValues t nm))))

/-! ## Histogram (`"Distribution Plot"` branch)

`ax.hist(df[selected], bins=20)` delegates to `numpy.histogram`: 20
equal-width bins over `(min, max)` of the data; when `min == max` numpy
expands the range to `(min - 0.5, max + 0.5)`.  Bins are half-open
`[e_i, e_{i+1})` except the last, which is closed. -/

/-- numpy's outer edges for automatic range: the observed `(min, max)`,
expanded by `±0.5` when the range is degenerate. -/
def histRange (l : List ℚ) : ℚ × ℚ :=
  let lo := (l.min?).getD 0
  let hi := (l.max?).getD 1
  if lo = hi then (lo - 1 / 2, hi + 1 / 2) else (lo, hi)

/-- The 21 bin edges of the 20-bin histogram: a linear grid over `histRange`. -/
def histEdges (l : List ℚ) : List ℚ :=
  (List.range 21).map
    (fun i : ℕ => (histRange l).1 + ((histRange l).2 - (histRange l).1) * (i : ℚ) / 20)

/-- Membership of a value in bin `i`: `[e_i, e_{i+1})`, except the last bin
`[e_19, e_20]` which also contains the right edge. -/
def inBin (l : List ℚ) (i : ℕ) (v : ℚ) : Prop :=
  (histEdges l).getD i 0 ≤ v ∧
    (v < (histEdges l).getD (i + 1) 0 ∨ (i = 19 ∧ v ≤ (histEdges l).getD 20 0))

instance (l : List ℚ) (i : ℕ) (v : ℚ) : Decidable (inBin l i v) := by
  unfold inBin; infer_instance

/-- The histogram bar heights: frequency count of each of the 20 bins. -/
def histCounts (l : List ℚ) : List ℕ :=
  (List.range 20).map (fun i => (l.filter (fun v => decide (inBin l i v))).length)

/-! ## Scatter plot (`"Scatter Plot"` branch)

`x_axis` is chosen from the selected columns; the `y_axis` choices are the
selected columns other than `x_axis`.  With an empty choice list the
selectbox yields `None` and no figure can be drawn. -/

/-- A rendered scatter figure. -/
structure ScatterFig where
  xName : String
  yName : String
  points : List (ℚ × ℚ)
deriving DecidableEq

/-- The y-axis choice list: `[c for c in selected_cols if c != x_axis]`. -/
def yOptions (sel : List String) (x : String) : List String :=
  sel.filter (fun c => c != x)

/-- Render a scatter plot given the user's x- and y-selectbox picks (as
indices into the respective option lists).  `none` when a pick is invalid —
in particular when the y-option list is empty. -/
def scatterRender (t : Table) (sel : List String) (xi yi : ℕ) : Option ScatterFig :=
  (sel[xi]?).bind (fun x =>
    ((yOptions sel x)[yi]?).map (fun y => ⟨x, y, (numValues t x).zip (numValues t y)⟩))

/-! ## Export (`Download Statistics` button) and display formatting

`stats.to_csv().encode('utf-8')` serialises the stored (unrounded) values;
the on-screen dataframe is formatted with `"{:.2f}"` instead. -/

/-- Header row of the exported CSV (`describe().T` index plus appended columns). -/
def csvHeader : List String :=
  ["", "count", "mean", "std", "min", "25%", "50%", "75%", "max", "skewness", "kurtosis"]

/-- The numeric fields of one statistics row, in CSV column order, as the
exact stored values. -/
noncomputable def rowFields (r : StatisticsRow) : List (Option ℝ) :=
  [some (r.count : ℝ), r.mean.map (fun q => (q : ℝ)), r.std,
    r.minv.map (fun q => (q : ℝ)), r.p25.map (fun q => (q : ℝ)),
    r.p50.map (fun q => (q : ℝ)), r.p75.map (fun q => (q : ℝ)),
    r.maxv.map (fun q => (q : ℝ)), r.skewness, r.kurtosis.map (fun q => (q : ℝ))]

/-- The exported artifact: header, one row per column carrying the exact
stored values, fixed filename and MIME type. -/
structure ExportArtifact where
  header : List String
  rows : List (String × List (Option ℝ))
  filename : String
  mime : String

/-- `st.download_button(data=stats.to_csv().encode('utf-8'), ...)`. -/
noncomputable def exportStats (st : List (String × StatisticsRow)) : ExportArtifact :=
  { header := csvHeader
    rows := st.map (fun p => (p.1, rowFields p.2))
    filename := "statistical_summary.csv"
    mime := "text/csv" }

/-- The `"{:.2f}"` presentation rounding: two decimal places. -/
noncomputable def round2 (x : ℝ) : ℝ := (round (x * 100) : ℤ) / 100

/-- The displayed statistics table: every numeric cell rounded to two
decimals (`stats.style.format("{:.2f}")`). -/
noncomputable def displayStats (st : List (String × StatisticsRow)) :
    List (String × List (Option ℝ)) :=
  st.map (fun p => (p.1, (rowFields p.2).map (Option.map round2)))

/-! ## The main pipeline up to the statistics stage

`main()` halts with a message at each failure boundary: unparsable file
(`load_data` catches the exception and returns `None`), empty dataframe,
no numeric columns, empty selection. -/

/-- Result of pandas parsing the uploaded bytes: an exception or a table. -/
inductive ParseResult where
  | parseError (emsg : String)
  | parsed (t : Table)

/-- The four halting failures of the pipeline. -/
inductive PipelineError where
  | loadFailure
  | emptyDataset
  | noNumericColumns
  | noColumnsSelected
deriving DecidableEq

/-- `load_data`: messages it renders itself, and the table (or `None`).
The parse exception is caught here, never propagated. -/
def load_data : ParseResult → List String × Option Table
  | .parseError m => (["Error loading file: " ++ m], none)
  | .parsed t => ([], some t)

/-- Outcome of one `main()` run up to the statistics stage. -/
structure RunOutcome where
  loaderMsgs : List String
  mainMsgs : List String
  halted : Option PipelineError
  stats : Option (List (String × StatisticsRow))

/-- The body of `main()` after the upload, as a function of the parse
result and of the user's column selection. -/
noncomputable def runMain (pr : ParseResult) (sel : List String) : RunOutcome :=
  match load_data pr with
  | (msgs, none) =>
    ⟨msgs, ["Invalid or empty file. Please upload a valid CSV."], some .loadFailure, none⟩
  | (msgs, some t) =>
    if t.emptyTable then
      ⟨msgs, ["Invalid or empty file. Please upload a valid CSV."], some .emptyDataset, none⟩
    else if numericCols t = [] then
      ⟨msgs, ["No numerical columns found in the dataset"], some .noNumericColumns, none⟩
    else if sel = [] then
      ⟨msgs, ["Please select at least one numerical column"], some .noColumnsSelected, none⟩
    else
      ⟨msgs, [], none, some (statsTable t sel)⟩

/-! ## Spec-side estimator definitions

These two definitions follow the specification's words, for comparison with
the code-derived `skewOpt` and `kurtOpt`: the Fisher-Pearson adjusted
skewness `G1 = sqrt(n(n-1))/(n-2) * g1` with `g1 = mu3 / mu2^(3/2)`, and the
bias-corrected excess kurtosis `G2 = (n-1)/((n-2)(n-3)) * ((n+1) g2 + 6)`
with `g2 = mu4 / mu2^2 - 3`, where `mu_k` is the `k`-th central moment. -/

/-- Modelled from the spec: bias-corrected (Fisher-Pearson adjusted)
sample skewness. -/
noncomputable def specSkew (l : List ℚ) : ℝ :=
  Real.sqrt ((l.length : ℝ) * ((l.length : ℝ) - 1)) / ((l.length : ℝ) - 2) *
    (((centralSum l 3 : ℝ) / (l.length : ℝ)) /
      Real.sqrt (((centralSum l 2 : ℝ) / (l.length : ℝ)) ^ 3))

/-- Modelled from the spec: bias-corrected excess kurtosis (normal = 0). -/
def specKurt (l : List ℚ) : ℚ :=
  ((l.length : ℚ) - 1) / (((l.length : ℚ) - 2) * ((l.length : ℚ) - 3)) *
    (((l.length : ℚ) + 1) *
        ((centralSum l 4 / (l.length : ℚ)) / (centralSum l 2 / (l.length : ℚ)) ^ 2 - 3) +
      6)

/-! ## Helper lemmas -/

theorem centralSum_two_nonneg (l : List ℚ) : 0 ≤ centralSum l 2 := by
  apply List.sum_nonneg
  intro x hx
  simp only [List.mem_map] at hx
  obtain ⟨a, _, rfl⟩ := hx
  positivity

theorem sqrt_four_eq : Real.sqrt 4 = 2 := by
  rw [show (4 : ℝ) = 2 ^ 2 by norm_num, Real.sqrt_sq (by norm_num : (0 : ℝ) ≤ 2)]

/-! ## Claims -/

/-- The example table with columns `a, b` and rows `(1,2), (2,4), (3,6)`. -/
def tabC2 : Table :=
  [⟨"a", .numeric [some 1, some 2, some 3]⟩, ⟨"b", .numeric [some 2, some 4, some 6]⟩]

/-- C2: on the table with columns `a, b` and rows `(1,2), (2,4), (3,6)`, the
statistics engine returns `mean(a) = 2`, `std(a) = 1`, `mean(b) = 4`,
`std(b) = 2` and `skewness(a) = 0`, where `std` is the sample standard
deviation with denominator `n - 1` (the square root of `sampleVar`, which
divides the squared deviations by `length - 1`). -/
theorem C2_example_stats :
    (statsRow (numCells tabC2 "a")).mean = some 2 ∧
      (statsRow (numCells tabC2 "a")).std = some 1 ∧
      (statsRow (numCells tabC2 "a")).skewness = some 0 ∧
      (statsRow (numCells tabC2 "b")).mean = some 4 ∧
      (statsRow (numCells tabC2 "b")).std = some 2 ∧
      statsTable tabC2 ["a", "b"] =
        [("a", statsRow (numCells tabC2 "a")), ("b", statsRow (numCells tabC2 "b"))] := by
  have ha : (numCells tabC2 "a").filterMap id = [1, 2, 3] := rfl
  have hb : (numCells tabC2 "b").filterMap id = [2, 4, 6] := rfl
  have hva : sampleVar [(1 : ℚ), 2, 3] = 1 := by
    norm_num [sampleVar, centralSum, mean]
  have hvb : sampleVar [(2 : ℚ), 4, 6] = 4 := by
    norm_num [sampleVar, centralSum, mean]
  have hm3a : centralSum [(1 : ℚ), 2, 3] 3 = 0 := by
    norm_num [centralSum, mean]
  refine ⟨?_, ?_, ?_, ?_, ?_, rfl⟩
  · show meanOpt ((numCells tabC2 "a").filterMap id) = some 2
    rw [ha]; norm_num [meanOpt, mean]
  · show stdOpt ((numCells tabC2 "a").filterMap id) = some 1
    rw [ha]
    simp [stdOpt, hva, Real.sqrt_one]
  · show skewOpt ((numCells tabC2 "a").filterMap id) = some 0
    rw [ha]
    have h2 : centralSum [(1 : ℚ), 2, 3] 2 = 2 := by
      norm_num [centralSum, mean]
    simp [skewOpt, h2, hm3a]
  · show meanOpt ((numCells tabC2 "b").filterMap id) = some 4
    rw [hb]; norm_num [meanOpt, mean]
  · show stdOpt ((numCells tabC2 "b").filterMap id) = some 2
    rw [hb]
    simp [stdOpt, hvb]
    exact sqrt_four_eq

/-- A constant numeric column: four identical non-missing values. -/
def constCells : NumCells := [some 5, some 5, some 5, some 5]

/-- A constant numeric column with a single non-missing value. -/
def constCell1 : NumCells := [some 5]

theorem mean_const {l : List ℚ} {c : ℚ} (hne : l ≠ []) (h : ∀ x ∈ l, x = c) :
    mean l = c := by
  have hsum : l.sum = (l.length : ℚ) * c := by
    induction l with
    | nil => simp
    | cons a tl ih =>
      have ha : a = c := h a (List.mem_cons_self a tl)
      by_cases htl : tl = []
      · subst htl; simp [ha]
      · have := ih htl (fun x hx => h x (List.mem_cons_of_mem a hx))
        simp [ha, this]
        ring
  have hlen : (l.length : ℚ) ≠ 0 :=
    Nat.cast_ne_zero.mpr (List.length_pos.mpr hne).ne'
  rw [mean, hsum]
  field_simp

theorem centralSum_const {l : List ℚ} {c : ℚ} {k : ℕ} (h : ∀ x ∈ l, x = c)
    (hk : k ≠ 0) : centralSum l k = 0 := by
  by_cases hne : l = []
  · subst hne; simp [centralSum]
  · rw [centralSum]
    apply List.sum_eq_zero
    intro y hy
    simp only [List.mem_map] at hy
    obtain ⟨x, hx, rfl⟩ := hy
    rw [h x hx, mean_const hne h, sub_self, zero_pow hk]

/-- C1 counterexample: on a column of four identical values (count 4 > 0)
the engine reports `std = 0` but `skewness = 0` and `kurtosis = 0`, not
NaN — the pandas `m2 == 0` branch yields `0`; and on a column with a single
value (count 1 > 0, trivially all-identical) `std` is NaN, not `0` — so
both the NaN clause and the `std = 0.0` clause of the claim are false. -/
theorem C1_counterexample :
    ((statsRow constCells).count = 4 ∧
      (statsRow constCells).std = some 0 ∧
      (statsRow constCells).skewness = some 0 ∧
      (statsRow constCells).skewness ≠ none ∧
      (statsRow constCells).kurtosis = some 0 ∧
      (statsRow constCells).kurtosis ≠ none) ∧
    ((statsRow constCell1).count = 1 ∧
      (statsRow constCell1).std = none ∧
      (statsRow constCell1).std ≠ some 0) := by
  have hl : (constCells.filterMap id) = [5, 5, 5, 5] := rfl
  have h2 : centralSum [(5 : ℚ), 5, 5, 5] 2 = 0 := by
    norm_num [centralSum, mean]
  refine ⟨⟨rfl, ?_, ?_, ?_, ?_, ?_⟩, rfl, ?_, ?_⟩
  · show stdOpt (constCells.filterMap id) = some 0
    rw [hl]
    simp [stdOpt, sampleVar, h2]
  · show skewOpt (constCells.filterMap id) = some 0
    rw [hl]
    simp [skewOpt, h2]
  · show skewOpt (constCells.filterMap id) ≠ none
    rw [hl]
    simp [skewOpt, h2]
  · show kurtOpt (constCells.filterMap id) = some 0
    rw [hl]
    simp [kurtOpt, h2]
  · show kurtOpt (constCells.filterMap id) ≠ none
    rw [hl]
    simp [kurtOpt, h2]
  · show stdOpt (constCell1.filterMap id) = none
    rw [stdOpt, if_pos (by decide)]
  · show stdOpt (constCell1.filterMap id) ≠ some 0
    rw [stdOpt, if_pos (by decide)]
    simp

/-- C1 amended: on a column whose non-missing values are all identical the
engine reports `std = 0` when `count ≥ 2` (NaN when `count = 1`);
`skewness` is NaN exactly when `count < 3` and `0` otherwise; `kurtosis` is
NaN exactly when `count < 4` and `0` otherwise.  The degenerate case
produces defined values, not an error. -/
theorem C1_amended (cells : NumCells) (c : ℚ)
    (hconst : ∀ x ∈ cells.filterMap id, x = c) :
    (2 ≤ (statsRow cells).count → (statsRow cells).std = some 0) ∧
      ((statsRow cells).count = 1 → (statsRow cells).std = none) ∧
      ((statsRow cells).skewness =
        if (statsRow cells).count < 3 then none else some 0) ∧
      ((statsRow cells).kurtosis =
        if (statsRow cells).count < 4 then none else some 0) := by
  have h2 : centralSum (cells.filterMap id) 2 = 0 :=
    centralSum_const hconst (by norm_num)
  have hcnt : (statsRow cells).count = (cells.filterMap id).length := rfl
  refine ⟨?_, ?_, ?_, ?_⟩
  · intro hc
    rw [hcnt] at hc
    show stdOpt (cells.filterMap id) = some 0
    rw [stdOpt, if_neg (by omega), sampleVar, h2]
    simp
  · intro hc
    rw [hcnt] at hc
    show stdOpt (cells.filterMap id) = none
    rw [stdOpt, if_pos (by omega)]
  · rw [hcnt]
    show skewOpt (cells.filterMap id) = _
    by_cases h3 : (cells.filterMap id).length < 3
    · rw [skewOpt, if_pos h3, if_pos h3]
    · rw [skewOpt, if_neg h3, if_pos h2, if_neg h3]
  · rw [hcnt]
    show kurtOpt (cells.filterMap id) = _
    by_cases h4 : (cells.filterMap id).length < 4
    · rw [kurtOpt, if_pos h4, if_pos h4]
    · rw [kurtOpt, if_neg h4, if_pos (by rw [h2]; ring), if_neg h4]

/-- C1 amended, witnessed on the concrete constant columns `constCells`
(count 4) and `constCell1` (count 1). -/
theorem C1_amended_witness :
    (statsRow constCells).std = some 0 ∧
      (statsRow constCells).skewness = some 0 ∧
      (statsRow constCells).kurtosis = some 0 ∧
      (statsRow constCell1).std = none := by
  have h := C1_amended constCells 5 (by decide)
  have h1 := C1_amended constCell1 5 (by decide)
  have hcount : (statsRow constCells).count = 4 := rfl
  have hcount1 : (statsRow constCell1).count = 1 := rfl
  refine ⟨h.1 (by rw [hcount]; norm_num), ?_, ?_, h1.2.1 hcount1⟩
  · rw [h.2.2.1, hcount]; norm_num
  · rw [h.2.2.2, hcount]; norm_num

theorem skew_formula_eq (N M2 M3 : ℝ) (hN : 3 ≤ N) (hM2 : 0 < M2) :
    N * Real.sqrt (N - 1) / (N - 2) * (M3 / Real.sqrt (M2 ^ 3)) =
      Real.sqrt (N * (N - 1)) / (N - 2) * ((M3 / N) / Real.sqrt ((M2 / N) ^ 3)) := by
  have hN0 : (0 : ℝ) < N := by linarith
  have hN2 : N - 2 ≠ 0 := by intro h; nlinarith
  have hM2c : (0 : ℝ) < M2 ^ 3 := by positivity
  have hsN : Real.sqrt (N * (N - 1)) = Real.sqrt N * Real.sqrt (N - 1) :=
    Real.sqrt_mul hN0.le _
  have hdiv : (M2 / N) ^ 3 = M2 ^ 3 / N ^ 3 := div_pow M2 N 3
  have hqd : Real.sqrt (M2 ^ 3 / N ^ 3) = Real.sqrt (M2 ^ 3) / Real.sqrt (N ^ 3) :=
    Real.sqrt_div (by positivity) _
  have hN3 : Real.sqrt (N ^ 3) = N * Real.sqrt N := by
    rw [pow_succ, Real.sqrt_mul (by positivity) N, Real.sqrt_sq hN0.le]
  have hsM2 : Real.sqrt (M2 ^ 3) ≠ 0 := (Real.sqrt_pos.mpr hM2c).ne'
  have hsqN : Real.sqrt N ≠ 0 := (Real.sqrt_pos.mpr hN0).ne'
  rw [hsN, hdiv, hqd, hN3]
  field_simp
  ring_nf
  rw [Real.sq_sqrt hN0.le]
  ring

theorem kurt_formula_eq (l : List ℚ) (h4 : 4 ≤ l.length)
    (hm2 : centralSum l 2 ≠ 0) :
    (l.length : ℚ) * ((l.length : ℚ) + 1) * ((l.length : ℚ) - 1) * centralSum l 4 /
        (((l.length : ℚ) - 2) * ((l.length : ℚ) - 3) * (centralSum l 2) ^ 2) -
      3 * ((l.length : ℚ) - 1) ^ 2 / (((l.length : ℚ) - 2) * ((l.length : ℚ) - 3)) =
      specKurt l := by
  have hn : (4 : ℚ) ≤ (l.length : ℚ) := by exact_mod_cast h4
  have h0 : (l.length : ℚ) ≠ 0 := by intro h; rw [h] at hn; norm_num at hn
  have h2 : (l.length : ℚ) - 2 ≠ 0 := by intro h; nlinarith
  have h3 : (l.length : ℚ) - 3 ≠ 0 := by intro h; nlinarith
  rw [specKurt]
  field_simp
  ring

/-- C3: skewness is NaN exactly when the column has fewer than 3 non-missing
values, kurtosis NaN exactly when fewer than 4; in the non-degenerate case
(`m2 ≠ 0`) the reported values equal the spec's bias-corrected estimators
(Fisher-Pearson adjusted skewness `specSkew`, bias-corrected excess kurtosis
`specKurt`). -/
theorem C3_moment_thresholds (cells : NumCells) :
    ((statsRow cells).skewness = none ↔ (statsRow cells).count < 3) ∧
      ((statsRow cells).kurtosis = none ↔ (statsRow cells).count < 4) ∧
      (3 ≤ (statsRow cells).count → centralSum (cells.filterMap id) 2 ≠ 0 →
        (statsRow cells).skewness = some (specSkew (cells.filterMap id))) ∧
      (4 ≤ (statsRow cells).count → centralSum (cells.filterMap id) 2 ≠ 0 →
        (statsRow cells).kurtosis = some (specKurt (cells.filterMap id))) := by
  have hcnt : (statsRow cells).count = (cells.filterMap id).length := rfl
  refine ⟨?_, ?_, ?_, ?_⟩
  · rw [hcnt]
    show skewOpt (cells.filterMap id) = none ↔ _
    rw [skewOpt]
    split
    · simp_all
    · split <;> simp_all
  · rw [hcnt]
    show kurtOpt (cells.filterMap id) = none ↔ _
    rw [kurtOpt]
    split
    · simp_all
    · split <;> simp_all
  · intro h3 hm2
    rw [hcnt] at h3
    show skewOpt (cells.filterMap id) = _
    rw [skewOpt, if_neg (by omega), if_neg hm2]
    congr 1
    have hM2pos : (0 : ℚ) < centralSum (cells.filterMap id) 2 :=
      lt_of_le_of_ne (centralSum_two_nonneg _) (Ne.symm hm2)
    have hN : (3 : ℝ) ≤ ((cells.filterMap id).length : ℝ) := by exact_mod_cast h3
    have hM2 : (0 : ℝ) < ((centralSum (cells.filterMap id) 2 : ℚ) : ℝ) := by
      exact_mod_cast hM2pos
    rw [specSkew]
    exact skew_formula_eq _ _ _ hN hM2
  · intro h4 hm2
    rw [hcnt] at h4
    show kurtOpt (cells.filterMap id) = _
    have hn : (4 : ℚ) ≤ ((cells.filterMap id).length : ℚ) := by exact_mod_cast h4
    have hden : ((cells.filterMap id).length - 2 : ℚ) *
        ((cells.filterMap id).length - 3) * (centralSum (cells.filterMap id) 2) ^ 2 ≠ 0 := by
      have h2 : ((cells.filterMap id).length : ℚ) - 2 ≠ 0 := by intro h; nlinarith
      have h3 : ((cells.filterMap id).length : ℚ) - 3 ≠ 0 := by intro h; nlinarith
      exact mul_ne_zero (mul_ne_zero h2 h3) (pow_ne_zero _ hm2)
    rw [kurtOpt, if_neg (by omega), if_neg hden]
    exact congrArg some (kurt_formula_eq _ h4 hm2)

/-- A concrete four-value column with non-vanishing second moment. -/
def cellsW : NumCells := [some 1, some 2, some 4, some 10]

/-- C3 witnessed on `cellsW`: four non-missing values, `m2 ≠ 0`, and the
reported skewness and kurtosis equal the spec estimators. -/
theorem C3_moment_thresholds_witness :
    3 ≤ (statsRow cellsW).count ∧
      centralSum (cellsW.filterMap id) 2 ≠ 0 ∧
      (statsRow cellsW).skewness = some (specSkew (cellsW.filterMap id)) ∧
      (statsRow cellsW).kurtosis = some (specKurt (cellsW.filterMap id)) := by
  have hc : (statsRow cellsW).count = 4 := rfl
  have hl : cellsW.filterMap id = [1, 2, 4, 10] := rfl
  have hm2 : centralSum (cellsW.filterMap id) 2 ≠ 0 := by
    rw [hl]; norm_num [centralSum, mean]
  have h := C3_moment_thresholds cellsW
  exact ⟨by omega, hm2, h.2.2.1 (by omega) hm2, h.2.2.2 (by omega) hm2⟩

/-- C4: the sequence of per-column skewness values in the skewness bar
chart is sorted non-decreasingly (`oleR`: defined values ascending, NaN
last), for every table and selection. -/
theorem C4_chart_sorted (t : Table) (sel : List String) :
    List.Sorted oleR ((skewChart t sel).map Prod.snd) := by
  have h := List.sorted_insertionSort pairLE
    (sel.map (fun nm => (nm, skewOpt (numValues t nm))))
  exact List.Pairwise.map Prod.snd (fun a b hab => hab) h

/-- C10: the skewness bar chart series is a permutation of the statistics
table's `(column, skewness)` pairs, and every charted value equals the
statistics table's skewness for that column — chart and table come from the
same function on the same data, so they can never disagree. -/
theorem C10_chart_matches_table (t : Table) (sel : List String) :
    List.Perm (skewChart t sel) ((statsTable t sel).map (fun p => (p.1, p.2.skewness))) ∧
      ∀ p ∈ skewChart t sel, p.2 = (statsRow (numCells t p.1)).skewness := by
  constructor
  · have hperm := List.perm_insertionSort pairLE
      (sel.map (fun nm => (nm, skewOpt (numValues t nm))))
    have heq : (statsTable t sel).map (fun p => (p.1, p.2.skewness)) =
        sel.map (fun nm => (nm, skewOpt (numValues t nm))) := by
      rw [statsTable, List.map_map]
      rfl
    rw [heq]
    exact hperm
  · intro p hp
    rw [skewChart, List.mem_insertionSort] at hp
    simp only [List.mem_map] at hp
    obtain ⟨nm, hnm, rfl⟩ := hp
    rfl

/-- C10 witnessed on the example table: the charted entry for column `a`
carries exactly the statistics table's skewness of `a`. -/
theorem C10_chart_matches_table_witness :
    ("a", skewOpt (numValues tabC2 "a")).2 = (statsRow (numCells tabC2 "a")).skewness := by
  apply (C10_chart_matches_table tabC2 ["a", "b"]).2
  rw [skewChart, List.mem_insertionSort]
  exact List.mem_map_of_mem _ (by simp)

theorem min?_le_of_mem {l : List ℚ} {a v : ℚ} (h : l.min? = some a) (hv : v ∈ l) :
    a ≤ v := by
  have hanti : Std.Antisymm (α := ℚ) (fun x y => x ≤ y) :=
    ⟨fun hxy hyx => le_antisymm hxy hyx⟩
  rw [List.min?_eq_some_iff (fun x => le_refl x) min_choice
    (fun _ _ _ => le_min_iff)] at h
  exact h.2 v hv

theorem le_max?_of_mem {l : List ℚ} {a v : ℚ} (h : l.max? = some a) (hv : v ∈ l) :
    v ≤ a := by
  have hanti : Std.Antisymm (α := ℚ) (fun x y => x ≤ y) :=
    ⟨fun hxy hyx => le_antisymm hxy hyx⟩
  rw [List.max?_eq_some_iff (fun x => le_refl x) max_choice
    (fun _ _ _ => max_le_iff)] at h
  exact h.2 v hv

theorem exists_min?_max? {l : List ℚ} (hne : l ≠ []) :
    ∃ lo hi, l.min? = some lo ∧ l.max? = some hi := by
  cases hm : l.min? with
  | none => exact absurd (List.min?_eq_none_iff.mp hm) hne
  | some lo =>
    cases hM : l.max? with
    | none => exact absurd (List.max?_eq_none_iff.mp hM) hne
    | some hi => exact ⟨lo, hi, rfl, rfl⟩

theorem histRange_eq {l : List ℚ} {lo hi : ℚ} (h1 : l.min? = some lo)
    (h2 : l.max? = some hi) :
    histRange l = if lo = hi then (lo - 1 / 2, hi + 1 / 2) else (lo, hi) := by
  simp [histRange, h1, h2]

theorem histRange_bounds {l : List ℚ} {v : ℚ} (hv : v ∈ l) :
    (histRange l).1 ≤ v ∧ v ≤ (histRange l).2 := by
  obtain ⟨lo, hi, h1, h2⟩ := exists_min?_max? (List.ne_nil_of_mem hv)
  have hlov := min?_le_of_mem h1 hv
  have hvhi := le_max?_of_mem h2 hv
  rw [histRange_eq h1 h2]
  split
  · refine ⟨?_, ?_⟩
    · show lo - 1 / 2 ≤ v
      linarith
    · show v ≤ hi + 1 / 2
      linarith
  · exact ⟨hlov, hvhi⟩

theorem histRange_lt (l : List ℚ) : (histRange l).1 < (histRange l).2 := by
  by_cases hne : l = []
  · subst hne
    norm_num [histRange]
  · obtain ⟨lo, hi, h1, h2⟩ := exists_min?_max? hne
    obtain ⟨v, hv⟩ := List.exists_mem_of_ne_nil l hne
    have hlohi : lo ≤ hi := le_trans (min?_le_of_mem h1 hv) (le_max?_of_mem h2 hv)
    rw [histRange_eq h1 h2]
    split
    · show lo - 1 / 2 < hi + 1 / 2
      linarith
    · exact lt_of_le_of_ne hlohi (by assumption)

theorem histEdges_getD (l : List ℚ) (i : ℕ) (hi : i < 21) :
    (histEdges l).getD i 0 =
      (histRange l).1 + ((histRange l).2 - (histRange l).1) * i / 20 := by
  rw [histEdges, List.getD_eq_getElem?_getD, List.getElem?_map, List.getElem?_range hi]
  rfl

theorem histEdges_mono (l : List ℚ) {i j : ℕ} (hij : i ≤ j) (hj : j ≤ 20)
    (hΔ : 0 ≤ (histRange l).2 - (histRange l).1) :
    (histEdges l).getD i 0 ≤ (histEdges l).getD j 0 := by
  rw [histEdges_getD l i (by omega), histEdges_getD l j (by omega)]
  have hij' : (i : ℚ) ≤ (j : ℚ) := by exact_mod_cast hij
  have : ((histRange l).2 - (histRange l).1) * i / 20 ≤
      ((histRange l).2 - (histRange l).1) * j / 20 := by gcongr
  linarith

theorem inBin_coverage {l : List ℚ} {v : ℚ} (hv : v ∈ l) :
    ∃ i, i < 20 ∧ inBin l i v := by
  have hΔ : 0 < (histRange l).2 - (histRange l).1 := by
    have := histRange_lt l
    linarith
  obtain ⟨hlov, hvhi⟩ := histRange_bounds hv
  set lo := (histRange l).1 with hlo
  set hi := (histRange l).2 with hhi
  set x : ℚ := 20 * (v - lo) / (hi - lo) with hxdef
  have hx0 : 0 ≤ x :=
    div_nonneg (mul_nonneg (by norm_num) (by linarith)) hΔ.le
  have hx20 : x ≤ 20 := by
    rw [hxdef, div_le_iff₀ hΔ]
    nlinarith
  set i := min ⌊x⌋₊ 19 with hidef
  have hi19 : i ≤ 19 := min_le_right _ _
  have hkey : (hi - lo) / 20 * x = v - lo := by
    have hΔ0 : hi - lo ≠ 0 := hΔ.ne'
    rw [hxdef]
    field_simp
    ring
  have hle : ((i : ℚ)) ≤ x :=
    le_trans (by exact_mod_cast Nat.cast_le.mpr (min_le_left ⌊x⌋₊ 19)) (Nat.floor_le hx0)
  refine ⟨i, by omega, ?_, ?_⟩
  · rw [histEdges_getD l i (by omega)]
    have h2 : (hi - lo) * (i : ℚ) / 20 ≤ v - lo := by
      calc (hi - lo) * (i : ℚ) / 20 = (hi - lo) / 20 * (i : ℚ) := by ring
        _ ≤ (hi - lo) / 20 * x :=
          mul_le_mul_of_nonneg_left hle (by positivity)
        _ = v - lo := hkey
    linarith
  · by_cases hcase : ⌊x⌋₊ ≤ 18
    · left
      have hieq : i = ⌊x⌋₊ := min_eq_left (by omega)
      have hltx : x < (⌊x⌋₊ : ℚ) + 1 := Nat.lt_floor_add_one x
      rw [histEdges_getD l (i + 1) (by omega)]
      have h3 : (hi - lo) / 20 * x < (hi - lo) / 20 * ((i : ℚ) + 1) := by
        apply mul_lt_mul_of_pos_left _ (by positivity)
        rw [hieq]
        exact hltx
      have h4 : v - lo < (hi - lo) * ((i : ℚ) + 1) / 20 := by
        calc v - lo = (hi - lo) / 20 * x := hkey.symm
          _ < (hi - lo) / 20 * ((i : ℚ) + 1) := h3
          _ = (hi - lo) * ((i : ℚ) + 1) / 20 := by ring
      push_cast
      linarith
    · right
      have hieq : i = 19 := min_eq_right (by omega)
      refine ⟨hieq, ?_⟩
      rw [histEdges_getD l 20 (by omega)]
      push_cast
      have h5 : lo + (hi - lo) * (20 : ℚ) / 20 = hi := by ring
      linarith

theorem inBin_disjoint (l : List ℚ) {v : ℚ} {i j : ℕ} (hij : i < j) (hj : j < 20)
    (hiv : inBin l i v) (hjv : inBin l j v) : False := by
  have hΔ : (0 : ℚ) ≤ (histRange l).2 - (histRange l).1 := by
    have := histRange_lt l
    linarith
  obtain ⟨hile, hir⟩ := hiv
  obtain ⟨hjle, _⟩ := hjv
  rcases hir with hlt | h19
  · have hmono := histEdges_mono l (show i + 1 ≤ j by omega) (by omega) hΔ
    linarith
  · omega

/-- C5 counterexample: on the constant column `[5, 5, 5]` (count = 3 > 0)
the histogram's 20 bins do not span the observed range `[5, 5]` — numpy
expands the degenerate range by `±0.5`, so the first edge is `4.5 ≠ 5`. -/
theorem C5_counterexample :
    ([(5 : ℚ), 5, 5].min? = some 5) ∧ ([(5 : ℚ), 5, 5].max? = some 5) ∧
      (histEdges [(5 : ℚ), 5, 5]).getD 0 0 = 9 / 2 ∧
      (histEdges [(5 : ℚ), 5, 5]).getD 20 0 = 11 / 2 ∧
      (9 / 2 : ℚ) ≠ 5 := by
  refine ⟨rfl, rfl, ?_, ?_, by norm_num⟩
  · rw [histEdges_getD _ 0 (by omega)]
    norm_num [histRange]
  · rw [histEdges_getD _ 20 (by omega)]
    norm_num [histRange]

/-- C5 amended: for every column with at least one raw value the histogram
has exactly 20 bins and 21 edges; all bins have equal width `(hi - lo)/20`;
bar heights are the frequency counts; every raw value falls into some bin
and into no two distinct bins; and when the observed range is non-degenerate
(`min < max`) the edges span exactly the observed range — for a constant
column numpy instead widens the range to `[v - 0.5, v + 0.5]`. -/
theorem C5_amended (l : List ℚ) (hcount : l ≠ []) :
    (histCounts l).length = 20 ∧
      (histEdges l).length = 21 ∧
      (∀ i, i < 20 → (histEdges l).getD (i + 1) 0 - (histEdges l).getD i 0 =
        ((histRange l).2 - (histRange l).1) / 20) ∧
      (∀ i, i < 20 → (histCounts l).getD i 0 =
        (l.filter (fun v => decide (inBin l i v))).length) ∧
      (∀ v ∈ l, ∃ i, i < 20 ∧ inBin l i v) ∧
      (∀ v i j, i < j → j < 20 → inBin l i v → ¬inBin l j v) ∧
      (∀ lo hi, l.min? = some lo → l.max? = some hi → lo < hi →
        (histEdges l).getD 0 0 = lo ∧ (histEdges l).getD 20 0 = hi) := by
  have hnonempty : 0 < l.length := List.length_pos.mpr hcount
  refine ⟨by simp [histCounts], by simp [histEdges], ?_, ?_, ?_, ?_, ?_⟩
  · intro i hi
    rw [histEdges_getD l (i + 1) (by omega), histEdges_getD l i (by omega)]
    push_cast
    ring
  · intro i hi
    rw [histCounts, List.getD_eq_getElem?_getD, List.getElem?_map,
      List.getElem?_range hi]
    rfl
  · exact fun v hv => inBin_coverage hv
  · exact fun v i j hij hj hiv hjv => inBin_disjoint l hij hj hiv hjv
  · intro lo hi h1 h2 hlt
    have hr : histRange l = (lo, hi) := by
      rw [histRange_eq h1 h2, if_neg (ne_of_lt hlt)]
    rw [histEdges_getD l 0 (by omega), histEdges_getD l 20 (by omega), hr]
    constructor
    · norm_num
    · push_cast
      show lo + (hi - lo) * (20 : ℚ) / 20 = hi
      ring

/-- C5 amended, witnessed on the column `[1, 2, 3]`: 20 bins whose edges
span exactly the observed range `[1, 3]`. -/
theorem C5_amended_witness :
    (histCounts [(1 : ℚ), 2, 3]).length = 20 ∧
      (histEdges [(1 : ℚ), 2, 3]).getD 0 0 = 1 ∧
      (histEdges [(1 : ℚ), 2, 3]).getD 20 0 = 3 := by
  have h := C5_amended [(1 : ℚ), 2, 3] (by decide)
  have hend := h.2.2.2.2.2.2 1 3 rfl rfl (by norm_num)
  exact ⟨h.1, hend.1, hend.2⟩

/-- C6: the export artifact carries the fixed filename
`statistical_summary.csv` and MIME `text/csv`, a header row plus one row
per selected column, and its numeric fields are exactly the stored
(unrounded) statistics; the displayed table is the same rows with every
cell rounded to two decimals, and that rounding is lossy — so the
2-decimal rounding exists only at presentation, never in the stored or
exported values. -/
theorem C6_export_unrounded (st : List (String × StatisticsRow)) :
    (exportStats st).filename = "statistical_summary.csv" ∧
      (exportStats st).mime = "text/csv" ∧
      (exportStats st).header = csvHeader ∧
      (exportStats st).rows.length = st.length ∧
      (∀ p ∈ st, (p.1, rowFields p.2) ∈ (exportStats st).rows) ∧
      displayStats st =
        (exportStats st).rows.map (fun p => (p.1, p.2.map (Option.map round2))) ∧
      (∃ x : ℝ, round2 x ≠ x) := by
  refine ⟨rfl, rfl, rfl, by simp [exportStats], ?_, ?_, ?_⟩
  · intro p hp
    exact List.mem_map_of_mem _ hp
  · show st.map _ = (st.map _).map _
    rw [List.map_map]
    rfl
  · refine ⟨1 / 1000, ?_⟩
    rw [round2, show ((1 : ℝ) / 1000) * 100 = 1 / 10 by norm_num]
    have hfloor : round ((1 : ℝ) / 10) = 0 := by
      rw [round_eq, show ((1 : ℝ) / 10 + 1 / 2) = 3 / 5 by norm_num]
      rw [Int.floor_eq_iff]
      norm_num
    rw [hfloor]
    norm_num

/-- C6 witnessed on the example table: the export of the statistics of
`tabC2` contains the unrounded row of column `a` and uses the fixed
filename. -/
theorem C6_export_unrounded_witness :
    ("a", rowFields (statsRow (numCells tabC2 "a"))) ∈
        (exportStats (statsTable tabC2 ["a", "b"])).rows ∧
      (exportStats (statsTable tabC2 ["a", "b"])).filename =
        "statistical_summary.csv" := by
  have h := C6_export_unrounded (statsTable tabC2 ["a", "b"])
  refine ⟨h.2.2.2.2.1 ("a", statsRow (numCells tabC2 "a")) ?_, h.1⟩
  exact List.mem_map_of_mem _ (by simp)

/-- An empty-but-parsable table: one numeric column with zero rows. -/
def tabEmpty : Table := [⟨"a", .numeric []⟩]

/-- A table with only text columns. -/
def tabText : Table := [⟨"t", .text [some "x"]⟩]

/-- C7: every failure kind is detected at its boundary, renders a message,
and halts the pipeline before the statistics stage; a successful run
reaches the statistics stage with no halt.  The parse exception is caught
inside `load_data` (which renders its own message), so no failure
propagates as a crash. -/
theorem C7_failure_boundaries :
    (∀ e sel, (runMain (.parseError e) sel).halted = some .loadFailure ∧
      (runMain (.parseError e) sel).stats = none ∧
      (runMain (.parseError e) sel).loaderMsgs = ["Error loading file: " ++ e] ∧
      (runMain (.parseError e) sel).mainMsgs ≠ []) ∧
    (∀ t sel, t.emptyTable = true →
      (runMain (.parsed t) sel).halted = some .emptyDataset ∧
      (runMain (.parsed t) sel).stats = none ∧
      (runMain (.parsed t) sel).mainMsgs ≠ []) ∧
    (∀ t sel, t.emptyTable = false → numericCols t = [] →
      (runMain (.parsed t) sel).halted = some .noNumericColumns ∧
      (runMain (.parsed t) sel).stats = none ∧
      (runMain (.parsed t) sel).mainMsgs ≠ []) ∧
    (∀ t, t.emptyTable = false → numericCols t ≠ [] →
      (runMain (.parsed t) []).halted = some .noColumnsSelected ∧
      (runMain (.parsed t) []).stats = none ∧
      (runMain (.parsed t) []).mainMsgs ≠ []) ∧
    (∀ t sel, t.emptyTable = false → numericCols t ≠ [] → sel ≠ [] →
      (runMain (.parsed t) sel).halted = none ∧
      (runMain (.parsed t) sel).stats = some (statsTable t sel)) := by
  refine ⟨?_, ?_, ?_, ?_, ?_⟩
  · intro e sel
    exact ⟨rfl, rfl, rfl, by simp [runMain, load_data]⟩
  · intro t sel ht
    refine ⟨?_, ?_, ?_⟩ <;> simp [runMain, load_data, ht]
  · intro t sel ht hnc
    refine ⟨?_, ?_, ?_⟩ <;> simp [runMain, load_data, ht, hnc]
  · intro t ht hnc
    refine ⟨?_, ?_, ?_⟩ <;> simp [runMain, load_data, ht, hnc]
  · intro t sel ht hnc hsel
    constructor <;> simp [runMain, load_data, ht, hnc, hsel]

/-- C7 witnessed on concrete inputs: each of the four failures halts with
its kind, and the valid run reaches the statistics stage. -/
theorem C7_failure_boundaries_witness :
    (runMain (.parseError "oops") ["a"]).halted = some PipelineError.loadFailure ∧
      (runMain (.parsed tabEmpty) ["a"]).halted = some PipelineError.emptyDataset ∧
      (runMain (.parsed tabText) ["a"]).halted = some PipelineError.noNumericColumns ∧
      (runMain (.parsed tabC2) []).halted = some PipelineError.noColumnsSelected ∧
      (runMain (.parsed tabC2) ["a"]).halted = none ∧
      (runMain (.parsed tabC2) ["a"]).stats = some (statsTable tabC2 ["a"]) := by
  have h := C7_failure_boundaries
  exact ⟨(h.1 "oops" ["a"]).1, (h.2.1 tabEmpty ["a"] rfl).1,
    (h.2.2.1 tabText ["a"] rfl rfl).1,
    (h.2.2.2.1 tabC2 rfl (by decide)).1,
    (h.2.2.2.2 tabC2 ["a"] rfl (by decide) (by decide)).1,
    (h.2.2.2.2 tabC2 ["a"] rfl (by decide) (by decide)).2⟩

/-- C8 counterexample: the caller's message for a parsed-but-empty table is
exactly the message for an unparsable file — the caller does not report a
distinct empty-dataset failure. -/
theorem C8_counterexample :
    (runMain (.parsed tabEmpty) []).mainMsgs =
        (runMain (.parseError "bad file") []).mainMsgs ∧
      (runMain (.parsed tabEmpty) []).mainMsgs =
        ["Invalid or empty file. Please upload a valid CSV."] := by
  exact ⟨rfl, rfl⟩

/-- C8 amended: a zero-row parse and an unparsable file are both halted by
the caller with the same `Invalid or empty file` message; the two cases are
distinguishable only by the loader's own extra `Error loading file` message
(absent for the empty dataset), not by any distinct caller report. -/
theorem C8_amended (e : String) (t : Table) (ht : t.emptyTable = true)
    (sel sel2 : List String) :
    (runMain (.parsed t) sel).mainMsgs = (runMain (.parseError e) sel2).mainMsgs ∧
      (runMain (.parsed t) sel).loaderMsgs = [] ∧
      (runMain (.parseError e) sel2).loaderMsgs = ["Error loading file: " ++ e] ∧
      (runMain (.parsed t) sel).halted = some .emptyDataset ∧
      (runMain (.parseError e) sel2).halted = some .loadFailure := by
  refine ⟨?_, ?_, rfl, ?_, rfl⟩ <;> simp [runMain, load_data, ht]

/-- C8 amended, witnessed on the concrete empty table. -/
theorem C8_amended_witness :
    (runMain (.parsed tabEmpty) []).mainMsgs =
        (runMain (.parseError "oops") []).mainMsgs ∧
      (runMain (.parsed tabEmpty) []).halted = some PipelineError.emptyDataset := by
  have h := C8_amended "oops" tabEmpty rfl [] []
  exact ⟨h.1, h.2.2.2.1⟩

/-- C9 counterexample: with three selected columns a scatter figure is
still produced (the user picks an x and a y among them), so a scatter is
not produced "only when exactly two columns are selected". -/
theorem C9_counterexample :
    scatterRender tabC2 ["a", "b", "c"] 0 0 ≠ none ∧
      (["a", "b", "c"] : List String).length = 3 := by
  exact ⟨by decide, rfl⟩

/-- C9 amended: whenever a scatter figure is produced its x and y columns
are distinct (the y choices exclude the chosen x); with exactly one
selected column no figure can be produced (the y-option list is empty);
and a figure is produced for any valid x pick whose y-option list is
non-empty — which is guaranteed as soon as at least two distinct columns
are selected, not only exactly two. -/
theorem C9_amended (t : Table) (sel : List String) (xi yi : ℕ) :
    (∀ fig, scatterRender t sel xi yi = some fig → fig.xName ≠ fig.yName) ∧
      (sel.length = 1 → scatterRender t sel xi yi = none) ∧
      (∀ x, sel[xi]? = some x → yOptions sel x ≠ [] →
        ∃ fig, scatterRender t sel xi 0 = some fig ∧ fig.xName = x) ∧
      (2 ≤ sel.length → sel.Nodup → ∀ x ∈ sel, yOptions sel x ≠ []) := by
  refine ⟨?_, ?_, ?_, ?_⟩
  · intro fig hfig
    rw [scatterRender] at hfig
    cases hx : sel[xi]? with
    | none => rw [hx] at hfig; simp at hfig
    | some x =>
      rw [hx, Option.some_bind] at hfig
      cases hy : (yOptions sel x)[yi]? with
      | none => rw [hy] at hfig; simp at hfig
      | some y =>
        rw [hy] at hfig
        have hfig2 : ScatterFig.mk x y ((numValues t x).zip (numValues t y)) = fig :=
          Option.some.inj hfig
        have hymem : y ∈ yOptions sel x := List.getElem?_mem hy
        have hyx : y ≠ x := by
          rw [yOptions, List.mem_filter] at hymem
          simpa using hymem.2
        rw [← hfig2]
        exact fun hcontr => hyx (by simpa using hcontr.symm)
  · intro h1
    obtain ⟨a, rfl⟩ : ∃ a, sel = [a] := by
      cases sel with
      | nil => simp at h1
      | cons x xs =>
        cases xs with
        | nil => exact ⟨x, rfl⟩
        | cons y ys => simp at h1
    rw [scatterRender]
    cases hx : ([a] : List String)[xi]? with
    | none => simp
    | some x =>
      have hxa : x = a := by simpa using List.getElem?_mem hx
      subst hxa
      have hyopts : yOptions [x] x = [] := by simp [yOptions]
      rw [Option.some_bind, hyopts]
      rfl
  · intro x hx hne
    have hpos : 0 < (yOptions sel x).length := List.length_pos.mpr hne
    have hy : (yOptions sel x)[0]? = some ((yOptions sel x).get ⟨0, hpos⟩) := by
      rw [List.getElem?_eq_getElem hpos]
      rfl
    refine ⟨⟨x, (yOptions sel x).get ⟨0, hpos⟩,
      (numValues t x).zip (numValues t ((yOptions sel x).get ⟨0, hpos⟩))⟩, ?_, rfl⟩
    rw [scatterRender, hx, Option.some_bind, hy]
    rfl
  · intro hlen hnd x hx
    intro hempty
    have hall : ∀ z ∈ sel, z = x := by
      intro z hz
      by_contra hzx
      have : z ∈ yOptions sel x := by
        rw [yOptions, List.mem_filter]
        exact ⟨hz, by simpa using hzx⟩
      rw [hempty] at this
      simp at this
    cases sel with
    | nil => simp at hlen
    | cons a tl =>
      cases tl with
      | nil => simp at hlen
      | cons b tl2 =>
        have ha : a = x := hall a (by simp)
        have hb : b = x := hall b (by simp)
        have : a ∉ b :: tl2 := (List.nodup_cons.mp hnd).1
        exact this (by rw [ha, hb]; simp)

/-- C9 amended, witnessed: one selected column yields no scatter; three
selected columns yield a scatter figure. -/
theorem C9_amended_witness :
    scatterRender tabC2 ["a"] 0 0 = none ∧
      (∃ fig, scatterRender tabC2 ["a", "b", "c"] 0 0 = some fig ∧
        fig.xName = "a") := by
  refine ⟨(C9_amended tabC2 ["a"] 0 0).2.1 rfl, ?_⟩
  exact (C9_amended tabC2 ["a", "b", "c"] 0 0).2.2.1 "a" rfl (by decide)

end StatsApp
